import Mathlib

/-!
Verification of the multi-provider search dispatcher and the streaming
answer pipeline of the gpt-researcher backend.

The definitions below are a shallow embedding of
`backend/server/search_providers.py` (quota ledger, round-robin provider
selection, layered failure fallback) and of `backend/server/quick_search.py`
(prompt building and the cancellable server-sent-event stream).

External collaborators (the network calls of each search backend, and the
Ollama generation stream) are modelled as oracles: a search call oracle maps
a provider record to either a result list or an exception, and the generator
is a list of fragments together with how the underlying stream ended.  The
current calendar month (datetime.now().strftime of the code) is passed in as
an explicit string argument.  Exceptions are modelled by the `Except` error
branch; the payload string names the exception where the identity matters
(the `StopIteration` raised by the exhausted-registry fallback).

Stateful methods become explicit state-passing functions on `ManagerState`.
Every dispatch function also returns the trace of provider records whose
search collaborator was actually invoked, in call order, so that claims of
the form "provider X is never called" are directly expressible.
-/

namespace GptResearcher

/-- SearchResult: the `{title, url, snippet}` record produced by every
provider-specific parser in `search_providers.py`. -/
structure SearchResult where
  title : String
  url : String
  snippet : String
deriving DecidableEq, Repr

/-- SearchProvider: the dataclass of `search_providers.py` (id, provider
type tag, optional credential, optional base URL, optional monthly quota
`limit` with `none` meaning unlimited, and the `used` counter). -/
structure SearchProvider where
  id : String
  provider_type : String
  api_key : Option String := none
  url : Option String := none
  limit : Option Nat := none
  used : Nat := 0
deriving DecidableEq, Repr

/-- UsageData: the persisted ledger layout
`{"month": "YYYY-MM", "usage": {provider-id: used, ...}}`. -/
structure UsageData where
  month : String
  usage : List (String × Nat)
deriving DecidableEq, Repr

/-- ManagerState: the mutable state of `SearchProviderManager` (the provider
list, the round-robin cursor `current_index`) together with the content of
the usage file on disk (`none` models a missing or unreadable file). -/
structure ManagerState where
  providers : List SearchProvider
  current_index : Nat
  store : Option UsageData
deriving DecidableEq, Repr

/-- limitTruthy models Python truthiness of the `limit` field as used by
`if provider.limit and results:` and by the save-file comprehension filter
`if p.limit`: `None` and `0` are falsy. -/
def limitTruthy : Option Nat → Bool
  | none => false
  | some l => l != 0

/-- usageSnapshot is the dict comprehension of `_save_usage`:
`{p.id: p.used for p in self.providers if p.limit}`. -/
def usageSnapshot (ps : List SearchProvider) : List (String × Nat) :=
  (ps.filter (fun p => limitTruthy p.limit)).map (fun p => (p.id, p.used))

/-- save_usage embeds `SearchProviderManager._save_usage`: it overwrites the
usage file with the current month stamp and the current counters of every
quota-bearing provider.  (Write failures are logged and swallowed in the
code; the model tracks the successful write.) -/
def save_usage (now : String) (st : ManagerState) : ManagerState :=
  { st with store := some { month := now, usage := usageSnapshot st.providers } }

/-- load_usage embeds `SearchProviderManager._load_usage`.  A missing file or
any read/parse error is the `none` case and leaves the state untouched.  If
the stored month differs from the current month the counters are not
restored (they keep their in-memory value) and `_save_usage` runs at once;
otherwise each provider restores `data["usage"].get(id, 0)`. -/
def load_usage (now : String) (file : Option UsageData) (st : ManagerState) : ManagerState :=
  match file with
  | none => st
  | some data =>
    if data.month ≠ now then
      save_usage now st
    else
      { st with providers :=
          st.providers.map (fun p => { p with used := (data.usage.lookup p.id).getD 0 }) }

/-- quotaOk is the availability test `limit is None or used < limit`. -/
def quotaOk (p : SearchProvider) : Bool :=
  match p.limit with
  | none => true
  | some l => decide (p.used < l)

/-- selectLoop is the while loop of `_get_next_provider`: starting from
cursor `idx` with `fuel` attempts remaining, it returns the index of the
selected provider (if any) together with the final cursor value.  Each
attempt reads `providers[idx % len]`, advances the cursor, returns the
candidate when it is unlimited or under quota, and otherwise skips. -/
def selectLoop (ps : List SearchProvider) : Nat → Nat → Option Nat × Nat
  | idx, 0 => (none, idx)
  | idx, fuel + 1 =>
    match ps.get? (idx % ps.length) with
    | none => (none, idx)
    | some p =>
      match p.limit with
      | none => (some (idx % ps.length), idx + 1)
      | some l =>
        if p.used < l then (some (idx % ps.length), idx + 1)
        else selectLoop ps (idx + 1) fuel

/-- findIdxFrom returns the first list position satisfying the test together
with the element, modelling `next((p for p in providers if pred p), None)`
while keeping the index so mutation can be located. -/
def findIdxFrom (pred : SearchProvider → Bool) : List SearchProvider → Option (Nat × SearchProvider)
  | [] => none
  | p :: ps =>
    if pred p then some (0, p)
    else (findIdxFrom pred ps).map (fun ip => (ip.1 + 1, ip.2))

/-- getNextProvider embeds `_get_next_provider`.  It runs the round-robin
loop for `len(providers)` attempts; if the loop finds nobody it returns the
first provider of type searxng, and when no such provider exists the
original `next(...)` raises StopIteration, modelled by `none`. -/
def getNextProvider (st : ManagerState) : Option (Nat × ManagerState) :=
  match selectLoop st.providers st.current_index st.providers.length with
  | (some i, idx2) => some (i, { st with current_index := idx2 })
  | (none, idx2) =>
    match findIdxFrom (fun p => p.provider_type == "searxng") st.providers with
    | some ip => some (ip.1, { st with current_index := idx2 })
    | none => none

/-- bumpUsed increments the `used` field of the element at the given
position, modelling the in-place `provider.used += 1`. -/
def bumpUsed : Nat → List SearchProvider → List SearchProvider
  | _, [] => []
  | 0, p :: ps => { p with used := p.used + 1 } :: ps
  | i + 1, p :: ps => p :: bumpUsed i ps

/-- recordAt applies the usage increment at provider position `i`. -/
def recordAt (i : Nat) (st : ManagerState) : ManagerState :=
  { st with providers := bumpUsed i st.providers }

/-- recordAndSave is the success bookkeeping of `search`:
`provider.used += 1` followed by `self._save_usage()`. -/
def recordAndSave (i : Nat) (now : String) (st : ManagerState) : ManagerState :=
  save_usage now (recordAt i st)

/-- knownTypes lists the provider type tags that the if/elif dispatch of
`search` routes to an actual collaborator call; any other tag silently
yields an empty result list without any network call. -/
def knownTypes : List String := ["searxng", "ddg", "tavily", "brave", "serper", "exa", "linkup"]

/-- filteredModes is the set `{"reddit", "news", "shopping"}` of focus modes
that prefer the filter-capable backend. -/
def filteredModes : List String := ["reddit", "news", "shopping"]

/-- fallbackSkipTypes is the explicit exclusion list of the alternative
provider scan: `alt_provider.provider_type not in ["searxng", "ddg"]`. -/
def fallbackSkipTypes : List String := ["searxng", "ddg"]

/-- fallbackInvokeTypes lists the provider types the alternative scan
actually invokes: the if/elif inside the scan only has branches for tavily,
serper and exa, so any other eligible provider is passed over silently. -/
def fallbackInvokeTypes : List String := ["tavily", "serper", "exa"]

/-- Oracle models the family of provider-specific search collaborators for
one fixed query, result count and focus mode: the outcome of calling out to
the given provider, either a parsed result list or a raised exception. -/
abbrev Oracle := SearchProvider → Except String (List SearchResult)

/-- altScanT embeds the `for alt_provider in self.providers:` scan of the
failure fallback: a provider is considered when its id differs from the
failed one, its type is not searxng or ddg, and it is under quota; of the
considered providers only those of type tavily, serper or exa are invoked
(the others fall through the if/elif without a call).  The first successful
invocation returns its result list; exceptions continue the scan.  The
second component is the trace of providers actually invoked. -/
def altScanT (call : Oracle) (fid : String) :
    List SearchProvider → Option (List SearchResult) × List SearchProvider
  | [] => (none, [])
  | p :: rest =>
    if p.id != fid && !(fallbackSkipTypes.contains p.provider_type) && quotaOk p then
      if fallbackInvokeTypes.contains p.provider_type then
        match call p with
        | .ok r => (some r, [p])
        | .error _ =>
          let sc := altScanT call fid rest
          (sc.1, p :: sc.2)
      else altScanT call fid rest
    else altScanT call fid rest

/-- fallbackT embeds the `except` branch of `search`: first the retry on the
first searxng provider (only when the failed provider id is not the literal
"searxng"), whose result is returned as is on success even when empty; when
the retry raises, or is unavailable, the alternative scan runs, and a fully
exhausted chain yields the empty list. -/
def fallbackT (call : Oracle) (failed : SearchProvider) (st1 : ManagerState) :
    List SearchResult × List SearchProvider :=
  match st1.providers.find? (fun p => p.provider_type == "searxng") with
  | some sx =>
    if failed.id ≠ "searxng" then
      match call sx with
      | .ok r => (r, [sx])
      | .error _ =>
        let sc := altScanT call failed.id st1.providers
        (sc.1.getD [], sx :: sc.2)
    else
      let sc := altScanT call failed.id st1.providers
      (sc.1.getD [], sc.2)
  | none =>
    let sc := altScanT call failed.id st1.providers
    (sc.1.getD [], sc.2)

/-- searchRRT embeds the round-robin portion of `SearchProviderManager.search`
(everything after the focus-mode preference): select the next provider,
invoke it, and on a successful non-empty result from a quota-bearing
provider increment and save; an exception from the invocation enters the
fallback chain, whose outcome is returned as a normal (non-error) result.
When provider selection itself finds nobody the StopIteration of
`_get_next_provider` propagates as an error.  The second component is the
trace of providers actually invoked. -/
def searchRRT (call : Oracle) (now : String) (st : ManagerState) :
    Except String (List SearchResult × ManagerState) × List SearchProvider :=
  match getNextProvider st with
  | none => (.error "StopIteration", [])
  | some (i, st1) =>
    match st1.providers.get? i with
    | none => (.error "StopIteration", [])
    | some p =>
      if p.provider_type ∈ knownTypes then
        match call p with
        | .ok r =>
          if limitTruthy p.limit ∧ r ≠ [] then
            (.ok (r, recordAndSave i now st1), [p])
          else
            (.ok (r, st1), [p])
        | .error _ =>
          let fb := fallbackT call p st1
          (.ok (fb.1, st1), p :: fb.2)
      else
        (.ok ([], st1), [p])

/-- searchT embeds `SearchProviderManager.search`.  For a filtered focus mode
the first searxng provider is attempted ahead of the cursor; a non-empty
result returns at once with the state untouched, an empty result falls
through to the round-robin path, and an exception propagates to the caller
because that call site sits outside the try block of the code. -/
def searchT (call : Oracle) (mode now : String) (st : ManagerState) :
    Except String (List SearchResult × ManagerState) × List SearchProvider :=
  if mode ∈ filteredModes then
    match st.providers.find? (fun p => p.provider_type == "searxng") with
    | some sp =>
      match call sp with
      | .error e => (.error e, [sp])
      | .ok r =>
        if r = [] then
          let rr := searchRRT call now st
          (rr.1, sp :: rr.2)
        else
          (.ok (r, st), [sp])
    | none => searchRRT call now st
  else searchRRT call now st

/-- runSelect iterates `_get_next_provider` the given number of times,
collecting the selected indices; iteration stops early if selection raises. -/
def runSelect : ManagerState → Nat → List Nat × ManagerState
  | st, 0 => ([], st)
  | st, m + 1 =>
    match getNextProvider st with
    | none => ([], st)
    | some (i, st1) =>
      let rest := runSelect st1 m
      (i :: rest.1, rest.2)

/-- Event is the stream framing of `quick_search.generate_response`: one
constructor per emitted server-sent event type. -/
inductive Event where
  | sources (srcs : List SearchResult) (query : String) (focus_mode : String)
  | start
  | chunk (content : String)
  | done
deriving DecidableEq, Repr

/-- OllamaEnd describes how the underlying Ollama HTTP stream terminated:
normal exhaustion, a raised exception with its message, or an
asyncio.CancelledError. -/
inductive OllamaEnd where
  | normal
  | errored (msg : String)
  | cancelled
deriving DecidableEq, Repr

/-- GenEnd describes how the fragment generator seen by the pipeline ends
after `stream_ollama_response` has applied its error handling: either it is
exhausted normally or it re-raises cancellation. -/
inductive GenEnd where
  | normal
  | cancelled
deriving DecidableEq, Repr

/-- stream_ollama_response embeds the error handling of the generator of the
same name: a mid-stream exception is converted into one final inline
fragment `"\n\nError: " ++ msg` followed by normal termination, while
asyncio.CancelledError is re-raised to the consumer. -/
def stream_ollama_response (frags : List String) (e : OllamaEnd) : List String × GenEnd :=
  match e with
  | .normal => (frags, .normal)
  | .errored m => (frags ++ ["\n\nError: " ++ m], .normal)
  | .cancelled => (frags, .cancelled)

/-- chunkLoop embeds the `async for chunk in stream_ollama_response(...)`
loop of `generate_response`.  The disconnect signal `disc` is polled with
the number of fragments requested from the generator so far: after the
k-th fragment is retrieved the poll sees the argument k, and a true poll
returns immediately, emitting nothing further.  When the fragment list is
exhausted a normal generator end emits the done event, while a re-raised
cancellation is caught and ends the stream with no terminal event. -/
def chunkLoop (disc : Nat → Bool) (e : GenEnd) : List String → Nat → List Event
  | [], _ =>
    match e with
    | .normal => [Event.done]
    | .cancelled => []
  | f :: fs, k =>
    if disc (k + 1) then [] else Event.chunk f :: chunkLoop disc e fs (k + 1)

/-- generate_response embeds the event generator of the `quick_search`
endpoint: emit the sources event, poll the disconnect signal (argument 0:
no fragment requested yet) and stop silently if it is set, emit the start
event, then run the chunk loop over what `stream_ollama_response` yields. -/
def generate_response (disc : Nat → Bool) (frags : List String) (oe : OllamaEnd)
    (srcs : List SearchResult) (query mode : String) : List Event :=
  let g := stream_ollama_response frags oe
  Event.sources srcs query mode ::
    (if disc 0 then [] else Event.start :: chunkLoop disc g.2 g.1 0)

/-- ConversationMessage is the request model of `quick_search.py`: a role
string and free-form content. -/
structure ConversationMessage where
  role : String
  content : String
deriving DecidableEq, Repr

/-- strTake models the Python string slice `s[:n]`. -/
def strTake (s : String) (n : Nat) : String :=
  ⟨s.data.take n⟩

/-- roleLabel is the role rendering of the prompt builder: the label is
User when the role field equals user, otherwise Assistant. -/
def roleLabel (m : ConversationMessage) : String :=
  if m.role = "user" then "User" else "Assistant"

/-- historyMsgs is the trailing slice `conversation_history[-6:]` iterated
by the prompt builder of `stream_ollama_response`. -/
def historyMsgs (h : List ConversationMessage) : List ConversationMessage :=
  h.drop (h.length - 6)

/-- renderMsg is one line of the history block: the role label, a colon and
a space, the message content clipped to its first 500 characters, and a
newline. -/
def renderMsg (m : ConversationMessage) : String :=
  roleLabel m ++ ": " ++ strTake m.content 500 ++ "\n"

/-- history_text is the `history_text` accumulator of the prompt builder:
empty for an empty history, otherwise a header, one rendered line per
message of the trailing slice, and a final newline. -/
def history_text (h : List ConversationMessage) : String :=
  if h.isEmpty then ""
  else "\nPrevious Conversation:\n" ++ String.join ((historyMsgs h).map renderMsg) ++ "\n"

/-- sourcesText is the numbered citation block
`"\n".join(f"[{i+1}] {title}: {snippet}")`. -/
def sourcesText (srcs : List SearchResult) : String :=
  String.intercalate "\n"
    (srcs.enum.map (fun si => "[" ++ toString (si.1 + 1) ++ "] " ++ si.2.title ++ ": " ++ si.2.snippet))

/-- promptHeader is the instruction preamble of the generation prompt. -/
def promptHeader : String :=
  "You are a helpful AI assistant. Answer the user\x27s question based on the search results and conversation context below.\nInclude citations in your answer using [1], [2], etc. to reference the sources.\nBe concise but comprehensive. Format your response in markdown.\n"

/-- build_prompt assembles the generation prompt of
`stream_ollama_response` from the preamble, the history block, the numbered
sources and the query. -/
def build_prompt (srcs : List SearchResult) (h : List ConversationMessage) (query : String) : String :=
  promptHeader ++ (history_text h ++ ("\nSearch Results:\n" ++ sourcesText srcs ++
    "\n\nUser Question: " ++ query ++ "\n\nAnswer with citations:"))

/-- okToCall says a provider is not over quota: either unlimited or strictly
below its limit. -/
def okToCall (p : SearchProvider) : Prop :=
  ∀ l, p.limit = some l → p.used < l

/-- WF captures what `_init_providers` guarantees about every registry it
builds: every provider of type searxng is unlimited (only searxng entries
are ever created with `limit=None`). -/
def WF (st : ManagerState) : Prop :=
  ∀ p ∈ st.providers, p.provider_type = "searxng" → p.limit = none

/-- QuotaInv is the ledger invariant: every quota-bearing provider has
`used ≤ limit`. -/
def QuotaInv (st : ManagerState) : Prop :=
  ∀ p ∈ st.providers, ∀ l, p.limit = some l → p.used ≤ l

/-- invokableB collects the conditions under which the alternative scan of
the failure fallback actually issues a call to a provider: a different id
than the failed provider, a type outside the explicit searxng/ddg exclusion,
under quota, and a type among the three the if/elif of the scan invokes. -/
def invokableB (fid : String) (p : SearchProvider) : Bool :=
  p.id != fid && !(fallbackSkipTypes.contains p.provider_type) && quotaOk p &&
    fallbackInvokeTypes.contains p.provider_type

/-- firstOkT returns the result of the first provider in the list whose
call succeeds, together with the trace of all providers called. -/
def firstOkT (call : Oracle) : List SearchProvider → Option (List SearchResult) × List SearchProvider
  | [] => (none, [])
  | p :: rest =>
    match call p with
    | .ok r => (some r, [p])
    | .error _ =>
      let sc := firstOkT call rest
      (sc.1, p :: sc.2)

/-- chunkLoop_no_disconnect: with a disconnect signal that never fires, the
chunk loop emits one chunk event per fragment in order, followed by the done
event when the generator ends normally. -/
theorem chunkLoop_no_disconnect (l : List String) (k : Nat) :
    chunkLoop (fun _ => false) GenEnd.normal l k = l.map Event.chunk ++ [Event.done] := by
  induction l generalizing k with
  | nil => rfl
  | cons f fs ih => simp [chunkLoop, ih]

/-- C6.  Cancellation event sequence: with a non-empty source list, the
generator fragments A, B, C, D, and a disconnect signal that reads true once
more than two fragments have been requested (the poll is modelled as a
function of the number of fragments requested so far), the pipeline emits
exactly the events sources, start, chunk A, chunk B, and then the stream
ends: no chunk C, no done event, and nothing after cancellation is
observed. -/
theorem cancellation_event_sequence :
    generate_response (fun k => decide (2 < k)) ["A", "B", "C", "D"] OllamaEnd.normal
      [⟨"t", "u", "s"⟩] "q" "quick" =
      [Event.sources [⟨"t", "u", "s"⟩] "q" "quick", Event.start,
       Event.chunk "A", Event.chunk "B"] := by
  rfl

/-- C8.  Generation failure recovery: when the generation collaborator
raises mid-stream (other than cancellation) after producing some fragments,
the pipeline emits exactly one inline error fragment as a chunk event and
then the done event; the stream is not terminated abnormally and the error
is not propagated (the result is an ordinary event list ending in done). -/
theorem generation_failure_recovery (frags : List String) (msg : String)
    (srcs : List SearchResult) (q m : String) :
    generate_response (fun _ => false) frags (OllamaEnd.errored msg) srcs q m =
      Event.sources srcs q m :: Event.start ::
        (frags.map Event.chunk ++ [Event.chunk ("\n\nError: " ++ msg), Event.done]) := by
  simp [generate_response, stream_ollama_response, chunkLoop_no_disconnect]

/-- C9.  History truncation: the prompt builder iterates exactly the
trailing slice of at most the last 6 messages of the conversation history
(for 8 messages, exactly the last 6, that is, the history with its first
two messages dropped); each message is rendered with a role label and its
content clipped to at most its first 500 characters; and the generation
prompt contains the rendered history block between the preamble and the
sources section. -/
theorem history_truncation (h : List ConversationMessage) :
    (historyMsgs h).length ≤ 6 ∧
    historyMsgs h <:+ h ∧
    (h.length = 8 → historyMsgs h = h.drop 2) ∧
    (∀ m : ConversationMessage,
      (strTake m.content 500).length ≤ 500 ∧
      (strTake m.content 500).data = m.content.data.take 500 ∧
      renderMsg m = roleLabel m ++ ": " ++ strTake m.content 500 ++ "\n") ∧
    (∀ srcs q, build_prompt srcs h q =
      promptHeader ++ (history_text h ++ ("\nSearch Results:\n" ++ sourcesText srcs ++
        "\n\nUser Question: " ++ q ++ "\n\nAnswer with citations:"))) := by
  refine ⟨?_, ?_, ?_, ?_, ?_⟩
  · simp only [historyMsgs, List.length_drop]
    omega
  · exact List.drop_suffix _ h
  · intro h8
    simp [historyMsgs, h8]
  · intro m
    refine ⟨?_, rfl, rfl⟩
    have he : (strTake m.content 500).length = (m.content.data.take 500).length := rfl
    rw [he, List.length_take]
    exact min_le_left _ _
  · intro srcs q
    rfl

/-- history_truncation_witness instantiates the truncation theorem on a
concrete 8-message history, discharging the length hypothesis. -/
theorem history_truncation_witness :
    (historyMsgs [⟨"user", "m1"⟩, ⟨"assistant", "m2"⟩, ⟨"user", "m3"⟩, ⟨"assistant", "m4"⟩,
        ⟨"user", "m5"⟩, ⟨"assistant", "m6"⟩, ⟨"user", "m7"⟩, ⟨"assistant", "m8"⟩]).length ≤ 6 ∧
    historyMsgs [⟨"user", "m1"⟩, ⟨"assistant", "m2"⟩, ⟨"user", "m3"⟩, ⟨"assistant", "m4"⟩,
        ⟨"user", "m5"⟩, ⟨"assistant", "m6"⟩, ⟨"user", "m7"⟩, ⟨"assistant", "m8"⟩] =
      [⟨"user", "m3"⟩, ⟨"assistant", "m4"⟩, ⟨"user", "m5"⟩, ⟨"assistant", "m6"⟩,
        ⟨"user", "m7"⟩, ⟨"assistant", "m8"⟩] := by
  constructor
  · exact (history_truncation _).1
  · have h := (history_truncation [⟨"user", "m1"⟩, ⟨"assistant", "m2"⟩, ⟨"user", "m3"⟩,
      ⟨"assistant", "m4"⟩, ⟨"user", "m5"⟩, ⟨"assistant", "m6"⟩, ⟨"user", "m7"⟩,
      ⟨"assistant", "m8"⟩]).2.2.1 rfl
    simpa using h

/-- getNextProvider_frame: provider selection only moves the cursor; the
provider records and the persisted store are untouched. -/
theorem getNextProvider_frame {st st1 : ManagerState} {i : Nat}
    (h : getNextProvider st = some (i, st1)) :
    st1.providers = st.providers ∧ st1.store = st.store := by
  unfold getNextProvider at h
  split at h
  · simp only [Option.some.injEq, Prod.mk.injEq] at h
    obtain ⟨-, h2⟩ := h
    subst h2
    exact ⟨rfl, rfl⟩
  · split at h
    · simp only [Option.some.injEq, Prod.mk.injEq] at h
      obtain ⟨-, h2⟩ := h
      subst h2
      exact ⟨rfl, rfl⟩
    · cases h

/-- C3 counterexample.  No month-rollover check guards recordUse: with the
stored ledger month 2025-09 and the current month 2025-10, a successful
quota-bearing search increments the counter from 5 to 6 and saves the new
month stamp with the retained counter, instead of first clearing the usage
mapping to empty as the claim requires (which would have produced a counter
of 1 and a cleared mapping). -/
theorem month_rollover_cex :
    searchT (fun _ => Except.ok [⟨"t", "u", "s"⟩]) "quick" "2025-10"
      { providers := [{ id := "tavily_1", provider_type := "tavily",
                        limit := some 1000, used := 5 }],
        current_index := 0,
        store := some { month := "2025-09", usage := [("tavily_1", 5)] } } =
      (Except.ok ([⟨"t", "u", "s"⟩],
         { providers := [{ id := "tavily_1", provider_type := "tavily",
                           limit := some 1000, used := 6 }],
           current_index := 1,
           store := some { month := "2025-10", usage := [("tavily_1", 6)] } }),
       [{ id := "tavily_1", provider_type := "tavily", limit := some 1000, used := 5 }]) := by
  rfl

/-- C3 amended.  The month-rollover check runs at load time only: loading a
ledger whose stored month differs from the current month leaves every
in-memory counter at its initial zero and immediately saves the new month
with an all-zero usage mapping; save itself never clears the in-memory
counters, so no rollover reset happens before recordUse. -/
theorem month_rollover_amended (st : ManagerState) (data : UsageData) (now : String)
    (hz : ∀ p ∈ st.providers, p.used = 0) (hm : data.month ≠ now) :
    (∀ p ∈ (load_usage now (some data) st).providers, p.used = 0) ∧
    (∃ u, (load_usage now (some data) st).store = some { month := now, usage := u } ∧
      ∀ e ∈ u, e.2 = 0) ∧
    (∀ now2 st2, (save_usage now2 st2).providers = st2.providers) := by
  have hload : load_usage now (some data) st = save_usage now st := by
    simp [load_usage, hm]
  refine ⟨?_, ?_, fun now2 st2 => rfl⟩
  · rw [hload]
    exact hz
  · rw [hload]
    refine ⟨usageSnapshot st.providers, rfl, ?_⟩
    intro e he
    simp only [usageSnapshot, List.mem_map, List.mem_filter] at he
    obtain ⟨p, ⟨hp, -⟩, hep⟩ := he
    rw [← hep]
    exact hz p hp

/-- month_rollover_amended_witness instantiates the amended rollover theorem
on a freshly initialised registry (all counters zero) and a ledger stored
for the previous month. -/
theorem month_rollover_amended_witness :
    (∀ p ∈ (load_usage "2025-10"
        (some { month := "2025-09", usage := [("tavily_1", 7)] })
        { providers := [{ id := "searxng", provider_type := "searxng" },
                        { id := "tavily_1", provider_type := "tavily", limit := some 1000 }],
          current_index := 0, store := none }).providers, p.used = 0) ∧
    (∃ u, (load_usage "2025-10"
        (some { month := "2025-09", usage := [("tavily_1", 7)] })
        { providers := [{ id := "searxng", provider_type := "searxng" },
                        { id := "tavily_1", provider_type := "tavily", limit := some 1000 }],
          current_index := 0, store := none }).store = some { month := "2025-10", usage := u } ∧
      ∀ e ∈ u, e.2 = 0) := by
  have h := month_rollover_amended
    { providers := [{ id := "searxng", provider_type := "searxng" },
                    { id := "tavily_1", provider_type := "tavily", limit := some 1000 }],
      current_index := 0, store := none }
    { month := "2025-09", usage := [("tavily_1", 7)] }
    "2025-10" (by intro p hp; fin_cases hp <;> rfl) (by decide)
  exact ⟨h.1, h.2.1⟩

/-- C5 counterexample.  With a single quota-exhausted limited provider and
no unlimited provider configured, search does not degrade to an empty result
list: the StopIteration raised by the exhausted-registry fallback of
selectNext propagates to the caller as an error. -/
theorem total_exhaustion_cex :
    searchT (fun _ => Except.ok [⟨"t", "u", "s"⟩]) "quick" "2025-10"
      { providers := [{ id := "tavily_1", provider_type := "tavily",
                        limit := some 2, used := 2 }],
        current_index := 0, store := none } =
      (Except.error "StopIteration", []) := by
  rfl

/-- C7 counterexample.  In a filtered focus mode, when the preferred
filter-capable provider raises an exception the dispatcher does not fall
through to round-robin: the exception propagates to the caller (the trace
shows only the searxng attempt; the configured tavily provider is never
tried). -/
theorem focus_mode_cex :
    searchT (fun p => if p.provider_type = "searxng"
        then Except.error "ConnectError" else Except.ok [⟨"t", "u", "s"⟩])
      "reddit" "2025-10"
      { providers := [{ id := "searxng", provider_type := "searxng", url := some "http://sx" },
                      { id := "tavily_1", provider_type := "tavily", limit := some 1000 }],
        current_index := 0, store := none } =
      (Except.error "ConnectError",
       [{ id := "searxng", provider_type := "searxng", url := some "http://sx" }]) := by
  rfl

/-- C7 amended.  For a filtered focus mode the dispatcher first attempts the
filter-capable provider without consuming a cursor step: a non-empty result
is returned directly with the whole state (cursor included) untouched; an
empty result falls through to the ordinary round-robin path started from the
unchanged cursor; but a raised exception propagates to the caller instead of
falling through. -/
theorem focus_mode_amended (st : ManagerState) (call : Oracle) (now mode : String)
    (sp : SearchProvider)
    (hmode : mode ∈ filteredModes)
    (hsp : st.providers.find? (fun p => p.provider_type == "searxng") = some sp) :
    (∀ r, call sp = Except.ok r → r ≠ [] →
      searchT call mode now st = (Except.ok (r, st), [sp])) ∧
    (call sp = Except.ok [] →
      searchT call mode now st =
        ((searchRRT call now st).1, sp :: (searchRRT call now st).2)) ∧
    (∀ e, call sp = Except.error e →
      searchT call mode now st = (Except.error e, [sp])) := by
  refine ⟨?_, ?_, ?_⟩
  · intro r hr hne
    simp [searchT, if_pos hmode, hsp, hr, hne]
  · intro hr
    simp [searchT, if_pos hmode, hsp, hr]
  · intro e he
    simp [searchT, if_pos hmode, hsp, he]

/-- focus_mode_amended_witness instantiates the amended focus-mode theorem:
in reddit mode with a searxng provider returning one result, the result is
returned directly and the state is untouched. -/
theorem focus_mode_amended_witness :
    searchT (fun p => if p.provider_type = "searxng"
        then Except.ok [⟨"t", "u", "s"⟩] else Except.error "unused")
      "reddit" "2025-10"
      { providers := [{ id := "searxng", provider_type := "searxng", url := some "http://sx" },
                      { id := "tavily_1", provider_type := "tavily", limit := some 1000 }],
        current_index := 0, store := none } =
      (Except.ok ([⟨"t", "u", "s"⟩],
        { providers := [{ id := "searxng", provider_type := "searxng", url := some "http://sx" },
                        { id := "tavily_1", provider_type := "tavily", limit := some 1000 }],
          current_index := 0, store := none }),
       [{ id := "searxng", provider_type := "searxng", url := some "http://sx" }]) := by
  exact (focus_mode_amended
    { providers := [{ id := "searxng", provider_type := "searxng", url := some "http://sx" },
                    { id := "tavily_1", provider_type := "tavily", limit := some 1000 }],
      current_index := 0, store := none }
    (fun p => if p.provider_type = "searxng"
        then Except.ok [⟨"t", "u", "s"⟩] else Except.error "unused")
    "2025-10" "reddit"
    { id := "searxng", provider_type := "searxng", url := some "http://sx" }
    (by decide) rfl).1 [⟨"t", "u", "s"⟩] rfl (by decide)

/-- selectLoop_over_quota: when every provider is limited and at or over its
limit, the round-robin loop never selects anybody, whatever the cursor and
the remaining attempt budget. -/
theorem selectLoop_over_quota {ps : List SearchProvider}
    (h : ∀ p ∈ ps, ∃ l, p.limit = some l ∧ l ≤ p.used) :
    ∀ fuel idx, ∃ j, selectLoop ps idx fuel = (none, j) := by
  intro fuel
  induction fuel with
  | zero => exact fun idx => ⟨idx, rfl⟩
  | succ f ih =>
    intro idx
    cases hg : ps[idx % ps.length]? with
    | none => exact ⟨idx, by simp [selectLoop, hg]⟩
    | some p =>
      have hg2 : ps.get? (idx % ps.length) = some p := by
        rw [List.get?_eq_getElem?]
        exact hg
      obtain ⟨l, hl, hle⟩ := h p (List.get?_mem hg2)
      obtain ⟨j, hj⟩ := ih (idx + 1)
      exact ⟨j, by simp [selectLoop, hg, hl, Nat.not_lt.mpr hle, hj]⟩

/-- findIdxFrom_none: a search over a list where the test holds nowhere
finds nothing. -/
theorem findIdxFrom_none {pred : SearchProvider → Bool} {ps : List SearchProvider}
    (h : ∀ p ∈ ps, pred p = false) : findIdxFrom pred ps = none := by
  induction ps with
  | nil => rfl
  | cons p rest ih =>
    simp [findIdxFrom, h p (List.mem_cons_self p rest),
      ih (fun q hq => h q (List.mem_cons_of_mem p hq))]

/-- C5 amended.  If every provider carries a limit and every one has
`used ≥ limit`, provider selection yields no usable provider (the terminal
condition of the claim); but the overall search then surfaces the
StopIteration raised by the exhausted-registry fallback of
`_get_next_provider` as an error to the caller, rather than degrading to an
empty result list. -/
theorem total_exhaustion_amended (st : ManagerState)
    (hwf : WF st)
    (hall : ∀ p ∈ st.providers, ∃ l, p.limit = some l ∧ l ≤ p.used) :
    getNextProvider st = none ∧
    ∀ call mode now, searchT call mode now st = (Except.error "StopIteration", []) := by
  have hsx : ∀ p ∈ st.providers, ((fun q => q.provider_type == "searxng") p) = false := by
    intro p hp
    obtain ⟨l, hl, -⟩ := hall p hp
    by_cases hs : p.provider_type = "searxng"
    · rw [hwf p hp hs] at hl
      cases hl
    · simp only [beq_eq_false_iff_ne, ne_eq]
      exact hs
  have hnone : getNextProvider st = none := by
    obtain ⟨j, hj⟩ := selectLoop_over_quota hall st.providers.length st.current_index
    simp [getNextProvider, hj, findIdxFrom_none hsx]
  refine ⟨hnone, fun call mode now => ?_⟩
  have hrr : searchRRT call now st = (Except.error "StopIteration", []) := by
    simp [searchRRT, hnone]
  have hfind : st.providers.find? (fun p => p.provider_type == "searxng") = none :=
    List.find?_eq_none.mpr (by intro a ha; simp [hsx a ha])
  by_cases hm : mode ∈ filteredModes
  · simp [searchT, if_pos hm, hfind, hrr]
  · simp [searchT, if_neg hm, hrr]

/-- total_exhaustion_amended_witness instantiates the amended exhaustion
theorem on a registry of two fully used limited providers. -/
theorem total_exhaustion_amended_witness :
    getNextProvider
      { providers := [{ id := "tavily_1", provider_type := "tavily", limit := some 2, used := 2 },
                      { id := "brave_1", provider_type := "brave", limit := some 1, used := 5 }],
        current_index := 3, store := none } = none ∧
    searchT (fun _ => Except.ok [⟨"t", "u", "s"⟩]) "news" "2025-10"
      { providers := [{ id := "tavily_1", provider_type := "tavily", limit := some 2, used := 2 },
                      { id := "brave_1", provider_type := "brave", limit := some 1, used := 5 }],
        current_index := 3, store := none } = (Except.error "StopIteration", []) := by
  have h := total_exhaustion_amended
    { providers := [{ id := "tavily_1", provider_type := "tavily", limit := some 2, used := 2 },
                    { id := "brave_1", provider_type := "brave", limit := some 1, used := 5 }],
      current_index := 3, store := none }
    (by intro p hp; fin_cases hp <;> intro hs <;> exact absurd hs (by decide))
    (by
      intro p hp
      fin_cases hp
      · exact ⟨2, rfl, by decide⟩
      · exact ⟨1, rfl, by decide⟩)
  exact ⟨h.1, h.2 (fun _ => Except.ok [⟨"t", "u", "s"⟩]) "news" "2025-10"⟩

/-- C4 counterexample.  The generic fallback scan does not attempt every
remaining eligible provider: with a failed tavily provider and a brave
provider that is not the failed one, is not of an excluded capability
(searxng/ddg), is under quota, and whose call would succeed, the search
nevertheless returns the empty list and the trace shows the brave provider
was never invoked. -/
theorem fallback_scan_cex :
    searchT (fun p => if p.id = "tavily_1"
        then Except.error "boom" else Except.ok [⟨"t", "u", "s"⟩])
      "quick" "2025-10"
      { providers := [{ id := "tavily_1", provider_type := "tavily", limit := some 1000 },
                      { id := "brave_1", provider_type := "brave", limit := some 2000 }],
        current_index := 0, store := none } =
      (Except.ok ([],
         { providers := [{ id := "tavily_1", provider_type := "tavily", limit := some 1000 },
                         { id := "brave_1", provider_type := "brave", limit := some 2000 }],
           current_index := 1, store := none }),
       [{ id := "tavily_1", provider_type := "tavily", limit := some 1000 }]) ∧
    (fun (p : SearchProvider) => if p.id = "tavily_1"
        then Except.error "boom" else Except.ok [(⟨"t", "u", "s"⟩ : SearchResult)])
      { id := "brave_1", provider_type := "brave", limit := some 2000 } =
        Except.ok [⟨"t", "u", "s"⟩] ∧
    ("brave_1" : String) ≠ "tavily_1" ∧
    ("brave" : String) ∉ fallbackSkipTypes ∧
    quotaOk { id := "brave_1", provider_type := "brave", limit := some 2000 } = true := by
  exact ⟨rfl, rfl, by decide, by decide, rfl⟩

/-- altScanT_eq_firstOkT: the alternative-provider scan is first-success
search over exactly the providers satisfying `invokableB` (different id than
the failed provider, type outside searxng/ddg, under quota, and of one of
the three types the if/elif of the scan actually invokes). -/
theorem altScanT_eq_firstOkT (call : Oracle) (fid : String) (ps : List SearchProvider) :
    altScanT call fid ps = firstOkT call (ps.filter (invokableB fid)) := by
  induction ps with
  | nil => rfl
  | cons p rest ih =>
    simp only [altScanT, List.filter_cons]
    by_cases h1 : (p.id != fid && !(fallbackSkipTypes.contains p.provider_type) && quotaOk p) = true
    · rw [if_pos h1]
      by_cases h2 : fallbackInvokeTypes.contains p.provider_type = true
      · rw [if_pos h2]
        have hinv : invokableB fid p = true := by
          simp only [invokableB]
          rw [h1, h2]
          rfl
        rw [if_pos hinv]
        cases hc : call p with
        | ok r => simp [firstOkT, hc]
        | error e => simp [firstOkT, hc, ih]
      · have hinv : invokableB fid p = false := by
          simp only [invokableB]
          rw [h1, Bool.eq_false_iff.mpr h2]
          rfl
        rw [if_neg h2, if_neg (by rw [hinv]; exact Bool.false_ne_true)]
        exact ih
    · have hinv : invokableB fid p = false := by
        simp only [invokableB]
        rw [Bool.eq_false_iff.mpr h1]
        rfl
      rw [if_neg h1, if_neg (by rw [hinv]; exact Bool.false_ne_true)]
      exact ih

/-- searchRRT_primary_error: when the call to the selected primary provider
raises, the round-robin search returns the fallback-chain outcome paired
with the post-selection state, tracing the failed primary first. -/
theorem searchRRT_primary_error {st st1 : ManagerState} {call : Oracle} {now : String}
    {i : Nat} {p : SearchProvider} {e : String}
    (hsel : getNextProvider st = some (i, st1))
    (hp : st1.providers.get? i = some p)
    (hk : p.provider_type ∈ knownTypes)
    (hfail : call p = Except.error e) :
    searchRRT call now st =
      (Except.ok ((fallbackT call p st1).1, st1), p :: (fallbackT call p st1).2) := by
  have hp2 : st1.providers[i]? = some p := by
    rw [← List.get?_eq_getElem?]
    exact hp
  simp [searchRRT, hsel, hp2, if_pos hk, hfail]

/-- searchT_entry_unfiltered: for a mode outside the filtered set, search is
exactly the round-robin path. -/
theorem searchT_entry_unfiltered (call : Oracle) (mode now : String) (st : ManagerState)
    (hmode : mode ∉ filteredModes) :
    searchT call mode now st = searchRRT call now st := by
  simp [searchT, if_neg hmode]

/-- searchT_entry_filtered_nosx: in a filtered mode without any searxng
provider the preference step finds nobody and search is the round-robin
path. -/
theorem searchT_entry_filtered_nosx (call : Oracle) (mode now : String) (st : ManagerState)
    (hmode : mode ∈ filteredModes)
    (hfind : st.providers.find? (fun q => q.provider_type == "searxng") = none) :
    searchT call mode now st = searchRRT call now st := by
  simp [searchT, if_pos hmode, hfind]

/-- searchT_entry_filtered_empty: in a filtered mode whose preference
attempt returns the empty list, search falls through to the round-robin
path, the preference attempt prepended to the trace. -/
theorem searchT_entry_filtered_empty (call : Oracle) (mode now : String) (st : ManagerState)
    (sp : SearchProvider)
    (hmode : mode ∈ filteredModes)
    (hsp : st.providers.find? (fun q => q.provider_type == "searxng") = some sp)
    (hempty : call sp = Except.ok []) :
    searchT call mode now st =
      ((searchRRT call now st).1, sp :: (searchRRT call now st).2) := by
  simp [searchT, if_pos hmode, hsp, hempty]

/-- fallbackT_retry_unavailable: with no searxng provider in the registry
the fallback chain is exactly the alternative scan. -/
theorem fallbackT_retry_unavailable (call : Oracle) (failed : SearchProvider)
    (st1 : ManagerState)
    (hfind : st1.providers.find? (fun q => q.provider_type == "searxng") = none) :
    fallbackT call failed st1 =
      (((firstOkT call (st1.providers.filter (invokableB failed.id))).1).getD [],
       (firstOkT call (st1.providers.filter (invokableB failed.id))).2) := by
  simp [fallbackT, hfind, altScanT_eq_firstOkT]

/-- fallbackT_retry_skipped: when the failed provider id is the literal
searxng the retry guard skips the retry and the fallback chain is exactly
the alternative scan. -/
theorem fallbackT_retry_skipped (call : Oracle) (failed : SearchProvider)
    (st1 : ManagerState) (sx : SearchProvider)
    (hfind : st1.providers.find? (fun q => q.provider_type == "searxng") = some sx)
    (hid : failed.id = "searxng") :
    fallbackT call failed st1 =
      (((firstOkT call (st1.providers.filter (invokableB failed.id))).1).getD [],
       (firstOkT call (st1.providers.filter (invokableB failed.id))).2) := by
  simp [fallbackT, hfind, hid, altScanT_eq_firstOkT]

/-- fallbackT_retry_error: when the searxng retry itself raises, the
fallback chain runs the alternative scan, tracing the retry attempt
first. -/
theorem fallbackT_retry_error (call : Oracle) (failed : SearchProvider)
    (st1 : ManagerState) (sx : SearchProvider) (e : String)
    (hfind : st1.providers.find? (fun q => q.provider_type == "searxng") = some sx)
    (hid : failed.id ≠ "searxng")
    (herr : call sx = Except.error e) :
    fallbackT call failed st1 =
      (((firstOkT call (st1.providers.filter (invokableB failed.id))).1).getD [],
       sx :: (firstOkT call (st1.providers.filter (invokableB failed.id))).2) := by
  simp [fallbackT, hfind, hid, herr, altScanT_eq_firstOkT]

/-- C4 amended.  When the primary round-robin provider fails with an
exception and the filter-capable retry is unavailable (no searxng provider,
or the failed provider id is searxng so the retry guard skips it) or also
fails, the dispatcher runs the alternative scan, which attempts in registry
order exactly the providers that differ from the failed one, are outside
the searxng/ddg exclusion, are under quota, and are of one of the three
types the if/elif of the scan actually invokes (tavily, serper, exa —
brave and linkup pass the eligibility filter but are never invoked),
returning the first successful result (even an empty one) and the empty
list when none succeeds; and the round-robin path carrying this fallback is
reached from every entry of search: unfiltered modes, filtered modes
without a searxng provider, and filtered modes whose preference attempt
returned empty. -/
theorem fallback_scan_amended (call : Oracle) :
    (∀ fid ps, altScanT call fid ps = firstOkT call (ps.filter (invokableB fid))) ∧
    (∀ (now : String) (st st1 : ManagerState) (i : Nat) (p : SearchProvider) (e : String),
      getNextProvider st = some (i, st1) →
      st1.providers.get? i = some p →
      p.provider_type ∈ knownTypes →
      call p = Except.error e →
      searchRRT call now st =
        (Except.ok ((fallbackT call p st1).1, st1), p :: (fallbackT call p st1).2)) ∧
    (∀ (failed : SearchProvider) (st1 : ManagerState),
      (st1.providers.find? (fun q => q.provider_type == "searxng") = none →
        fallbackT call failed st1 =
          (((firstOkT call (st1.providers.filter (invokableB failed.id))).1).getD [],
           (firstOkT call (st1.providers.filter (invokableB failed.id))).2)) ∧
      (∀ sx, st1.providers.find? (fun q => q.provider_type == "searxng") = some sx →
        failed.id = "searxng" →
        fallbackT call failed st1 =
          (((firstOkT call (st1.providers.filter (invokableB failed.id))).1).getD [],
           (firstOkT call (st1.providers.filter (invokableB failed.id))).2)) ∧
      (∀ sx e, st1.providers.find? (fun q => q.provider_type == "searxng") = some sx →
        failed.id ≠ "searxng" → call sx = Except.error e →
        fallbackT call failed st1 =
          (((firstOkT call (st1.providers.filter (invokableB failed.id))).1).getD [],
           sx :: (firstOkT call (st1.providers.filter (invokableB failed.id))).2))) ∧
    (∀ (mode now : String) (st : ManagerState),
      (mode ∉ filteredModes → searchT call mode now st = searchRRT call now st) ∧
      (mode ∈ filteredModes →
        st.providers.find? (fun q => q.provider_type == "searxng") = none →
        searchT call mode now st = searchRRT call now st) ∧
      (∀ sp, mode ∈ filteredModes →
        st.providers.find? (fun q => q.provider_type == "searxng") = some sp →
        call sp = Except.ok [] →
        searchT call mode now st =
          ((searchRRT call now st).1, sp :: (searchRRT call now st).2))) := by
  refine ⟨fun fid ps => altScanT_eq_firstOkT call fid ps,
    fun now st st1 i p e hsel hp hk hfail => searchRRT_primary_error hsel hp hk hfail,
    fun failed st1 => ⟨fun hfind => fallbackT_retry_unavailable call failed st1 hfind,
      fun sx hfind hid => fallbackT_retry_skipped call failed st1 sx hfind hid,
      fun sx e hfind hid herr => fallbackT_retry_error call failed st1 sx e hfind hid herr⟩,
    fun mode now st => ⟨fun hmode => searchT_entry_unfiltered call mode now st hmode,
      fun hmode hfind => searchT_entry_filtered_nosx call mode now st hmode hfind,
      fun sp hmode hsp hempty =>
        searchT_entry_filtered_empty call mode now st sp hmode hsp hempty⟩⟩

/-- fallback_scan_amended_witness instantiates the amended fallback theorem
on a registry [searxng, tavily_1, serper_1] with cursor 1: the primary
tavily call fails, the searxng retry also fails, and the scan succeeds on
the quota-bearing serper provider, tracing tavily, searxng, serper. -/
theorem fallback_scan_amended_witness :
    searchT (fun p => if p.provider_type = "serper"
        then Except.ok [⟨"t", "u", "s"⟩] else Except.error "boom")
      "quick" "2025-10"
      { providers := [{ id := "searxng", provider_type := "searxng", url := some "http://sx" },
                      { id := "tavily_1", provider_type := "tavily", limit := some 1000 },
                      { id := "serper_1", provider_type := "serper",
                        limit := some 2500, used := 3 }],
        current_index := 1, store := none } =
      (Except.ok ([⟨"t", "u", "s"⟩],
        { providers := [{ id := "searxng", provider_type := "searxng", url := some "http://sx" },
                        { id := "tavily_1", provider_type := "tavily", limit := some 1000 },
                        { id := "serper_1", provider_type := "serper",
                          limit := some 2500, used := 3 }],
          current_index := 2, store := none }),
       [{ id := "tavily_1", provider_type := "tavily", limit := some 1000 },
        { id := "searxng", provider_type := "searxng", url := some "http://sx" },
        { id := "serper_1", provider_type := "serper", limit := some 2500, used := 3 }]) := by
  have h := fallback_scan_amended (fun p => if p.provider_type = "serper"
      then Except.ok [⟨"t", "u", "s"⟩] else Except.error "boom")
  have h1 := (h.2.2.2 "quick" "2025-10"
    { providers := [{ id := "searxng", provider_type := "searxng", url := some "http://sx" },
                    { id := "tavily_1", provider_type := "tavily", limit := some 1000 },
                    { id := "serper_1", provider_type := "serper",
                      limit := some 2500, used := 3 }],
      current_index := 1, store := none }).1 (by decide)
  have h2 := h.2.1 "2025-10"
    { providers := [{ id := "searxng", provider_type := "searxng", url := some "http://sx" },
                    { id := "tavily_1", provider_type := "tavily", limit := some 1000 },
                    { id := "serper_1", provider_type := "serper",
                      limit := some 2500, used := 3 }],
      current_index := 1, store := none }
    { providers := [{ id := "searxng", provider_type := "searxng", url := some "http://sx" },
                    { id := "tavily_1", provider_type := "tavily", limit := some 1000 },
                    { id := "serper_1", provider_type := "serper",
                      limit := some 2500, used := 3 }],
      current_index := 2, store := none }
    1 { id := "tavily_1", provider_type := "tavily", limit := some 1000 }
    "boom" rfl rfl (by decide) rfl
  have h3 := (h.2.2.1 { id := "tavily_1", provider_type := "tavily", limit := some 1000 }
    { providers := [{ id := "searxng", provider_type := "searxng", url := some "http://sx" },
                    { id := "tavily_1", provider_type := "tavily", limit := some 1000 },
                    { id := "serper_1", provider_type := "serper",
                      limit := some 2500, used := 3 }],
      current_index := 2, store := none }).2.2
    { id := "searxng", provider_type := "searxng", url := some "http://sx" }
    "boom" rfl (by decide) rfl
  rw [h1, h2, h3]
  rfl

/-- C10.  Frame effect of the failure fallback: whenever the call to the
primary round-robin provider raises, the rest of the search (searxng retry,
alternative scan, or exhaustion) returns the post-selection state, whose
provider counters and persisted store are exactly those before the search
(only the cursor moved); and this holds on every entry into the round-robin
path — unfiltered modes, filtered modes without a searxng provider, and
filtered modes whose preference attempt returned empty.  So no used counter
is incremented and no save occurs for a fallback-served call, even when the
succeeding fallback provider carries a quota limit. -/
theorem fallback_frame_effect (st : ManagerState) (call : Oracle) (now : String)
    (i : Nat) (st1 : ManagerState) (p : SearchProvider) (e : String)
    (hsel : getNextProvider st = some (i, st1))
    (hp : st1.providers.get? i = some p)
    (hk : p.provider_type ∈ knownTypes)
    (hfail : call p = Except.error e) :
    st1.providers = st.providers ∧ st1.store = st.store ∧
    searchRRT call now st =
      (Except.ok ((fallbackT call p st1).1, st1), p :: (fallbackT call p st1).2) ∧
    (∀ mode, mode ∉ filteredModes →
      searchT call mode now st =
        (Except.ok ((fallbackT call p st1).1, st1), p :: (fallbackT call p st1).2)) ∧
    (∀ mode, mode ∈ filteredModes →
      st.providers.find? (fun q => q.provider_type == "searxng") = none →
      searchT call mode now st =
        (Except.ok ((fallbackT call p st1).1, st1), p :: (fallbackT call p st1).2)) ∧
    (∀ mode sp, mode ∈ filteredModes →
      st.providers.find? (fun q => q.provider_type == "searxng") = some sp →
      call sp = Except.ok [] →
      searchT call mode now st =
        (Except.ok ((fallbackT call p st1).1, st1),
         sp :: p :: (fallbackT call p st1).2)) := by
  have hrr := @searchRRT_primary_error st st1 call now i p e hsel hp hk hfail
  refine ⟨(getNextProvider_frame hsel).1, (getNextProvider_frame hsel).2, hrr, ?_, ?_, ?_⟩
  · intro mode hmode
    rw [searchT_entry_unfiltered call mode now st hmode, hrr]
  · intro mode hmode hfind
    rw [searchT_entry_filtered_nosx call mode now st hmode hfind, hrr]
  · intro mode sp hmode hsp hempty
    rw [searchT_entry_filtered_empty call mode now st sp hmode hsp hempty, hrr]

/-- fallback_frame_effect_witness instantiates the frame theorem on a
registry where the primary tavily call fails and the quota-bearing serper
provider succeeds through the alternative scan: the returned state still
carries the original counters and store. -/
theorem fallback_frame_effect_witness :
    searchT (fun p => if p.id = "tavily_1"
        then Except.error "boom" else Except.ok [⟨"t", "u", "s"⟩])
      "quick" "2025-10"
      { providers := [{ id := "tavily_1", provider_type := "tavily", limit := some 1000 },
                      { id := "serper_1", provider_type := "serper",
                        limit := some 2500, used := 3 }],
        current_index := 0, store := none } =
      (Except.ok ((fallbackT (fun p => if p.id = "tavily_1"
            then Except.error "boom" else Except.ok [⟨"t", "u", "s"⟩])
          { id := "tavily_1", provider_type := "tavily", limit := some 1000 }
          { providers := [{ id := "tavily_1", provider_type := "tavily", limit := some 1000 },
                          { id := "serper_1", provider_type := "serper",
                            limit := some 2500, used := 3 }],
            current_index := 1, store := none }).1,
        { providers := [{ id := "tavily_1", provider_type := "tavily", limit := some 1000 },
                        { id := "serper_1", provider_type := "serper",
                          limit := some 2500, used := 3 }],
          current_index := 1, store := none }),
       { id := "tavily_1", provider_type := "tavily", limit := some 1000 } ::
         (fallbackT (fun p => if p.id = "tavily_1"
              then Except.error "boom" else Except.ok [⟨"t", "u", "s"⟩])
            { id := "tavily_1", provider_type := "tavily", limit := some 1000 }
            { providers := [{ id := "tavily_1", provider_type := "tavily", limit := some 1000 },
                            { id := "serper_1", provider_type := "serper",
                              limit := some 2500, used := 3 }],
              current_index := 1, store := none }).2) ∧
    ([{ id := "tavily_1", provider_type := "tavily", limit := some 1000 },
      { id := "serper_1", provider_type := "serper", limit := some 2500, used := 3 }] :
        List SearchProvider) =
      [{ id := "tavily_1", provider_type := "tavily", limit := some 1000 },
       { id := "serper_1", provider_type := "serper", limit := some 2500, used := 3 }] ∧
    (none : Option UsageData) = none := by
  have h := fallback_frame_effect
    { providers := [{ id := "tavily_1", provider_type := "tavily", limit := some 1000 },
                    { id := "serper_1", provider_type := "serper",
                      limit := some 2500, used := 3 }],
      current_index := 0, store := none }
    (fun p => if p.id = "tavily_1"
        then Except.error "boom" else Except.ok [⟨"t", "u", "s"⟩])
    "2025-10" 0
    { providers := [{ id := "tavily_1", provider_type := "tavily", limit := some 1000 },
                    { id := "serper_1", provider_type := "serper",
                      limit := some 2500, used := 3 }],
      current_index := 1, store := none }
    { id := "tavily_1", provider_type := "tavily", limit := some 1000 }
    "boom" rfl rfl (by decide) rfl
  exact ⟨h.2.2.2.1 "quick" (by decide), h.1, h.2.1⟩

/-- selectLoop_sound: whatever index the round-robin loop returns, the
provider stored there is unlimited or strictly under its quota. -/
theorem selectLoop_sound {ps : List SearchProvider} :
    ∀ fuel idx i j, selectLoop ps idx fuel = (some i, j) →
      ∃ p, ps.get? i = some p ∧ okToCall p := by
  intro fuel
  induction fuel with
  | zero =>
    intro idx i j h
    simp [selectLoop] at h
  | succ f ih =>
    intro idx i j h
    simp only [selectLoop] at h
    split at h
    · simp at h
    · rename_i p hg
      split at h
      · rename_i hl
        simp only [Prod.mk.injEq, Option.some.injEq] at h
        obtain ⟨h1, -⟩ := h
        subst h1
        refine ⟨p, hg, fun l hl2 => ?_⟩
        rw [hl] at hl2
        cases hl2
      · rename_i l hl
        split at h
        · rename_i hu
          simp only [Prod.mk.injEq, Option.some.injEq] at h
          obtain ⟨h1, -⟩ := h
          subst h1
          refine ⟨p, hg, fun l2 hl2 => ?_⟩
          rw [hl] at hl2
          cases hl2
          exact hu
        · exact ih _ _ _ h

/-- findIdxFrom_sound: a successful indexed search returns an element that
sits at the returned position and satisfies the test. -/
theorem findIdxFrom_sound {pred : SearchProvider → Bool} :
    ∀ {ps : List SearchProvider} {i : Nat} {p : SearchProvider},
      findIdxFrom pred ps = some (i, p) → ps.get? i = some p ∧ pred p = true := by
  intro ps
  induction ps with
  | nil => intro i p h; cases h
  | cons q rest ih =>
    intro i p h
    simp only [findIdxFrom] at h
    by_cases hq : pred q = true
    · rw [if_pos hq] at h
      simp only [Option.some.injEq, Prod.mk.injEq] at h
      obtain ⟨h1, h2⟩ := h
      subst h1
      subst h2
      exact ⟨rfl, hq⟩
    · rw [if_neg hq] at h
      obtain ⟨⟨i2, p2⟩, hfind, hmap⟩ := Option.map_eq_some'.mp h
      simp only [Prod.mk.injEq] at hmap
      obtain ⟨h1, h2⟩ := hmap
      subst h2
      subst h1
      obtain ⟨hg, hpred⟩ := ih hfind
      exact ⟨hg, hpred⟩

/-- getNextProvider_sound: under the registry shape guaranteed by
`_init_providers` (searxng entries are unlimited), whatever provider
selection returns is unlimited or strictly under its quota; in particular a
provider with `limit = some 2, used = 2` is never the selected one. -/
theorem getNextProvider_sound {st : ManagerState} {i : Nat} {st1 : ManagerState}
    (hwf : WF st) (h : getNextProvider st = some (i, st1)) :
    ∃ p, st.providers.get? i = some p ∧ okToCall p := by
  unfold getNextProvider at h
  split at h
  · rename_i i2 idx2 hsl
    simp only [Option.some.injEq, Prod.mk.injEq] at h
    obtain ⟨h1, -⟩ := h
    subst h1
    exact selectLoop_sound _ _ _ _ hsl
  · rename_i idx2 hsl
    split at h
    · rename_i ip hfind
      simp only [Option.some.injEq, Prod.mk.injEq] at h
      obtain ⟨h1, -⟩ := h
      subst h1
      obtain ⟨hg, hpred⟩ := findIdxFrom_sound hfind
      refine ⟨ip.2, hg, fun l hl => ?_⟩
      have hmem : ip.2 ∈ st.providers := List.get?_mem hg
      have hty : ip.2.provider_type = "searxng" := by simpa using hpred
      rw [hwf ip.2 hmem hty] at hl
      cases hl
    · cases h

/-- quotaOk_okToCall: the Boolean quota test implies the quota predicate. -/
theorem quotaOk_okToCall {p : SearchProvider} (h : quotaOk p = true) : okToCall p := by
  intro l hl
  unfold quotaOk at h
  rw [hl] at h
  exact of_decide_eq_true h

/-- selected_okToCall: the provider record actually fetched from the
post-selection state is unlimited or under quota. -/
theorem selected_okToCall {st st1 : ManagerState} {i : Nat} {p : SearchProvider}
    (hwf : WF st) (hsel : getNextProvider st = some (i, st1))
    (hp : st1.providers.get? i = some p) : okToCall p := by
  obtain ⟨p2, hp2, hok2⟩ := getNextProvider_sound hwf hsel
  rw [(getNextProvider_frame hsel).1] at hp
  rw [hp] at hp2
  cases hp2
  exact hok2

/-- altScanT_trace: every provider the alternative scan invokes passes the
quota test. -/
theorem altScanT_trace {call : Oracle} {fid : String} :
    ∀ {ps : List SearchProvider} (q : SearchProvider),
      q ∈ (altScanT call fid ps).2 → quotaOk q = true := by
  intro ps
  induction ps with
  | nil =>
    intro q hq
    simp [altScanT] at hq
  | cons p rest ih =>
    intro q hq
    simp only [altScanT] at hq
    by_cases h1 : (p.id != fid && !(fallbackSkipTypes.contains p.provider_type) && quotaOk p) = true
    · rw [if_pos h1] at hq
      have hpq : quotaOk p = true := by
        simp only [Bool.and_eq_true] at h1
        exact h1.2
      by_cases h2 : fallbackInvokeTypes.contains p.provider_type = true
      · rw [if_pos h2] at hq
        cases hc : call p with
        | ok r =>
          rw [hc] at hq
          simp at hq
          subst hq
          exact hpq
        | error e =>
          rw [hc] at hq
          simp at hq
          rcases hq with rfl | hq2
          · exact hpq
          · exact ih q hq2
      · rw [if_neg h2] at hq
        exact ih q hq
    · rw [if_neg h1] at hq
      exact ih q hq

/-- fallbackT_trace: under the searxng-is-unlimited registry shape, every
provider the failure-fallback chain invokes is unlimited or under quota. -/
theorem fallbackT_trace {call : Oracle} {failed : SearchProvider} {st1 : ManagerState}
    (hwf1 : ∀ p ∈ st1.providers, p.provider_type = "searxng" → p.limit = none) :
    ∀ q ∈ (fallbackT call failed st1).2, okToCall q := by
  intro q hq
  unfold fallbackT at hq
  split at hq
  · rename_i sx hfind
    have hsx : okToCall sx := by
      have hmem := List.mem_of_find?_eq_some hfind
      have hty : sx.provider_type = "searxng" := by simpa using List.find?_some hfind
      intro l hl
      rw [hwf1 sx hmem hty] at hl
      cases hl
    split at hq
    · split at hq
      · simp at hq
        subst hq
        exact hsx
      · simp at hq
        rcases hq with rfl | hq2
        · exact hsx
        · exact quotaOk_okToCall (altScanT_trace q hq2)
    · simp at hq
      exact quotaOk_okToCall (altScanT_trace q hq)
  · rename_i hfind
    simp at hq
    exact quotaOk_okToCall (altScanT_trace q hq)

/-- bumpUsed_inv: incrementing the counter of a provider that is strictly
under its quota preserves the ceiling invariant of the whole list. -/
theorem bumpUsed_inv : ∀ (ps : List SearchProvider) (i : Nat) (p : SearchProvider),
    (∀ q ∈ ps, ∀ l, q.limit = some l → q.used ≤ l) →
    ps.get? i = some p → okToCall p →
    ∀ q ∈ bumpUsed i ps, ∀ l, q.limit = some l → q.used ≤ l := by
  intro ps
  induction ps with
  | nil =>
    intro i p _ hp
    cases hp
  | cons a rest ih =>
    intro i p hinv hp hok q hq l hl
    cases i with
    | zero =>
      have ha : a = p := by simpa using hp
      subst ha
      simp only [bumpUsed] at hq
      rcases List.mem_cons.mp hq with rfl | hmem
      · exact hok l hl
      · exact hinv q (List.mem_cons_of_mem a hmem) l hl
    | succ i2 =>
      simp only [bumpUsed] at hq
      rcases List.mem_cons.mp hq with rfl | hmem
      · exact hinv q (List.mem_cons_self q rest) l hl
      · exact ih i2 p (fun q2 hq2 => hinv q2 (List.mem_cons_of_mem a hq2)) hp hok q hmem l hl

/-- searchRRT_trace: every provider invoked by the round-robin search path
(primary or fallback) is unlimited or strictly under quota. -/
theorem searchRRT_trace {st : ManagerState} (hwf : WF st) :
    ∀ call now, ∀ q ∈ (searchRRT call now st).2, okToCall q := by
  intro call now q hq
  unfold searchRRT at hq
  split at hq
  · cases hq
  · rename_i i st1 hsel
    split at hq
    · cases hq
    · rename_i p hp
      have hframe := getNextProvider_frame hsel
      have hpok : okToCall p := selected_okToCall hwf hsel hp
      have hwf1 : ∀ q2 ∈ st1.providers, q2.provider_type = "searxng" → q2.limit = none :=
        fun q2 hq2 => hwf q2 (hframe.1 ▸ hq2)
      split at hq
      · split at hq
        · split at hq
          · simp at hq
            subst hq
            exact hpok
          · simp at hq
            subst hq
            exact hpok
        · simp at hq
          rcases hq with rfl | hq2
          · exact hpok
          · exact fallbackT_trace hwf1 q hq2
      · simp at hq
        subst hq
        exact hpok

/-- searchRRT_inv: a successful round-robin search preserves the quota
ceiling invariant of the resulting state. -/
theorem searchRRT_inv {st : ManagerState} (hwf : WF st) (hinv : QuotaInv st) :
    ∀ call now r st2, (searchRRT call now st).1 = Except.ok (r, st2) → QuotaInv st2 := by
  intro call now r st2 h
  unfold searchRRT at h
  split at h
  · cases h
  · rename_i i st1 hsel
    have hframe := getNextProvider_frame hsel
    have hinv1 : QuotaInv st1 := fun q hq l hl => hinv q (hframe.1 ▸ hq) l hl
    split at h
    · cases h
    · rename_i p hp
      have hpok : okToCall p := selected_okToCall hwf hsel hp
      split at h
      · split at h
        · split at h
          · simp only [Except.ok.injEq, Prod.mk.injEq] at h
            obtain ⟨-, h2⟩ := h
            subst h2
            intro q hq l hl
            have hq2 : q ∈ bumpUsed i st1.providers := by
              simpa [recordAndSave, save_usage, recordAt] using hq
            exact bumpUsed_inv st1.providers i p hinv1 hp hpok q hq2 l hl
          · simp only [Except.ok.injEq, Prod.mk.injEq] at h
            obtain ⟨-, h2⟩ := h
            subst h2
            exact hinv1
        · simp only [Except.ok.injEq, Prod.mk.injEq] at h
          obtain ⟨-, h2⟩ := h
          subst h2
          exact hinv1
      · simp only [Except.ok.injEq, Prod.mk.injEq] at h
        obtain ⟨-, h2⟩ := h
        subst h2
        exact hinv1

/-- find_searxng_okToCall: the provider located by a find on the searxng
type tag is unlimited under the registry shape of `_init_providers`. -/
theorem find_searxng_okToCall {st : ManagerState} {sp : SearchProvider} (hwf : WF st)
    (hsp : st.providers.find? (fun p => p.provider_type == "searxng") = some sp) :
    okToCall sp := by
  have hmem := List.mem_of_find?_eq_some hsp
  have hty : sp.provider_type = "searxng" := by simpa using List.find?_some hsp
  intro l hl
  rw [hwf sp hmem hty] at hl
  cases hl

/-- C2.  Quota ceiling invariant: under the registry shape built by
`_init_providers` (searxng entries unlimited) and the ceiling invariant
`used ≤ limit`, (a) round-robin selection only ever returns a provider that
is unlimited or strictly under its quota — in particular a provider with
`limit = 2, used = 2` is never selected; (b) no search collaborator call is
ever issued against a provider whose `used ≥ limit` (every provider in the
call trace of a search, primary, retry or scan, is unlimited or strictly
under quota); and (c) the ceiling invariant still holds after any search,
because the counter is only incremented on a call made while
`used < limit`. -/
theorem quota_ceiling_invariant (st : ManagerState) (hwf : WF st) (hinv : QuotaInv st) :
    (∀ i st1, getNextProvider st = some (i, st1) →
      ∃ p, st.providers.get? i = some p ∧ ∀ l, p.limit = some l → p.used < l) ∧
    (∀ call mode now, ∀ q ∈ (searchT call mode now st).2,
      ∀ l, q.limit = some l → q.used < l) ∧
    (∀ call mode now r st2, (searchT call mode now st).1 = Except.ok (r, st2) →
      QuotaInv st2) := by
  refine ⟨fun i st1 hsel => getNextProvider_sound hwf hsel, ?_, ?_⟩
  · intro call mode now q hq
    unfold searchT at hq
    split at hq
    · split at hq
      · rename_i sp hsp
        have hspok : okToCall sp := find_searxng_okToCall hwf hsp
        split at hq
        · simp at hq
          subst hq
          exact hspok
        · split at hq
          · simp at hq
            rcases hq with rfl | hq2
            · exact hspok
            · exact searchRRT_trace hwf call now q hq2
          · simp at hq
            subst hq
            exact hspok
      · exact searchRRT_trace hwf call now q hq
    · exact searchRRT_trace hwf call now q hq
  · intro call mode now r st2 h
    unfold searchT at h
    split at h
    · split at h
      · rename_i sp hsp
        split at h
        · cases h
        · split at h
          · exact searchRRT_inv hwf hinv call now r st2 (by simpa using h)
          · simp only [Except.ok.injEq, Prod.mk.injEq] at h
            obtain ⟨-, h2⟩ := h
            subst h2
            exact hinv
      · exact searchRRT_inv hwf hinv call now r st2 h
    · exact searchRRT_inv hwf hinv call now r st2 h

/-- quota_ceiling_invariant_witness instantiates the ceiling theorem on a
registry holding a quota-exhausted tavily provider (`limit = 2, used = 2`)
and an unlimited searxng provider: selection skips the exhausted provider
and returns the one at position 1. -/
theorem quota_ceiling_invariant_witness :
    ∃ p, ([{ id := "tavily_1", provider_type := "tavily", limit := some 2, used := 2 },
           { id := "searxng", provider_type := "searxng" }] : List SearchProvider).get? 1 =
        some p ∧ ∀ l, p.limit = some l → p.used < l := by
  have h := quota_ceiling_invariant
    { providers := [{ id := "tavily_1", provider_type := "tavily", limit := some 2, used := 2 },
                    { id := "searxng", provider_type := "searxng" }],
      current_index := 0, store := none }
    (by
      intro p hp
      fin_cases hp
      · intro hcon
        exact absurd hcon (by decide)
      · intro _
        rfl)
    (by
      intro p hp l hl
      fin_cases hp
      · simp at hl
        subst hl
        decide
      · simp at hl)
  exact h.1 1
    { providers := [{ id := "tavily_1", provider_type := "tavily", limit := some 2, used := 2 },
                    { id := "searxng", provider_type := "searxng" }],
      current_index := 2, store := none }
    rfl

/-- getNext_unlimited: on a non-empty all-unlimited registry, selection
returns the provider at the cursor position modulo the registry size and
advances the cursor by one. -/
theorem getNext_unlimited {st : ManagerState}
    (hn : 0 < st.providers.length)
    (hU : ∀ p ∈ st.providers, p.limit = none) :
    getNextProvider st = some (st.current_index % st.providers.length,
      { st with current_index := st.current_index + 1 }) := by
  have hlt : st.current_index % st.providers.length < st.providers.length :=
    Nat.mod_lt _ hn
  obtain ⟨p, hp⟩ : ∃ p, st.providers.get? (st.current_index % st.providers.length) = some p :=
    ⟨_, List.get?_eq_get hlt⟩
  have hpl : p.limit = none := hU p (List.get?_mem hp)
  obtain ⟨f, hL⟩ : ∃ f, st.providers.length = f + 1 := ⟨st.providers.length - 1, by omega⟩
  have hsl : selectLoop st.providers st.current_index st.providers.length =
      (some (st.current_index % st.providers.length), st.current_index + 1) := by
    conv_lhs => rw [hL]
    simp only [selectLoop, hp, hpl]
  unfold getNextProvider
  rw [hsl]

/-- runSelect_unlimited: on a non-empty all-unlimited registry, a run of m
selections yields exactly the cursor residues in order and advances the
cursor by m. -/
theorem runSelect_unlimited :
    ∀ (m : Nat) (st : ManagerState), 0 < st.providers.length →
      (∀ p ∈ st.providers, p.limit = none) →
      runSelect st m =
        ((List.range m).map (fun j => (st.current_index + j) % st.providers.length),
         { st with current_index := st.current_index + m }) := by
  intro m
  induction m with
  | zero =>
    intro st hn hU
    rfl
  | succ m ih =>
    intro st hn hU
    have hstep := getNext_unlimited hn hU
    simp only [runSelect, hstep]
    rw [ih { st with current_index := st.current_index + 1 } hn hU]
    simp only [Prod.mk.injEq]
    constructor
    · rw [List.range_succ_eq_map, List.map_cons, List.map_map]
      congr 1
      refine List.map_congr_left ?_
      intro j hj
      simp only [Function.comp_apply]
      congr 1
      omega
    · congr 1
      omega

/-- count_mod_one_cycle: over one full cycle of cursor positions the residue
map hits every index below the modulus exactly once. -/
theorem count_mod_one_cycle (c n i : Nat) (hi : i < n) :
    ((List.range n).map (fun j => (c + j) % n)).count i = 1 := by
  have hn : 0 < n := lt_of_le_of_lt (Nat.zero_le i) hi
  have hnd : ((List.range n).map (fun j => (c + j) % n)).Nodup := by
    refine (List.nodup_range n).map_on ?_
    intro x hx y hy hxy
    simp only [List.mem_range] at hx hy
    have h1 : x % n = y % n := Nat.ModEq.add_left_cancel' c hxy
    rwa [Nat.mod_eq_of_lt hx, Nat.mod_eq_of_lt hy] at h1
  have hmem : i ∈ (List.range n).map (fun j => (c + j) % n) := by
    refine List.mem_map.mpr ⟨(n + i - c % n) % n, List.mem_range.mpr (Nat.mod_lt _ hn), ?_⟩
    have hcm : c % n < n := Nat.mod_lt c hn
    have hd := Nat.div_add_mod c n
    rw [Nat.add_mod_mod]
    have h3 : n * (c / n + 1) = n * (c / n) + n := by ring
    have h2 : c + (n + i - c % n) = i + n * (c / n + 1) := by omega
    rw [h2, Nat.mul_comm, Nat.add_mul_mod_self_right, Nat.mod_eq_of_lt hi]
  exact List.count_eq_one_of_mem hnd hmem

/-- count_mod_cycles: over k full cycles every index below the modulus is
hit exactly k times. -/
theorem count_mod_cycles (n i : Nat) (hi : i < n) :
    ∀ (k c : Nat), ((List.range (k * n)).map (fun j => (c + j) % n)).count i = k := by
  intro k
  induction k with
  | zero =>
    intro c
    simp
  | succ k ih =>
    intro c
    have hsplit : (k + 1) * n = k * n + n := by ring
    rw [hsplit, List.range_add, List.map_append, List.count_append, ih c, List.map_map]
    have hcongr : (List.range n).map ((fun j => (c + j) % n) ∘ (k * n + ·)) =
        (List.range n).map (fun j => (c + j) % n) := by
      refine List.map_congr_left ?_
      intro j hj
      simp only [Function.comp]
      have h4 : c + (k * n + j) = (c + j) + k * n := by omega
      rw [h4, Nat.add_mul_mod_self_right]
    rw [hcongr, count_mod_one_cycle c n i hi]

/-- C1.  Round-robin fairness: on a registry of n providers none of which
carries a quota limit, any run of k·n consecutive selections, from any
starting cursor value, returns exactly the cursor residues in registry
order (cycling), and therefore selects every provider index exactly k
times. -/
theorem round_robin_fairness (st : ManagerState) (k : Nat)
    (hU : ∀ p ∈ st.providers, p.limit = none) :
    (runSelect st (k * st.providers.length)).1 =
      (List.range (k * st.providers.length)).map
        (fun j => (st.current_index + j) % st.providers.length) ∧
    (∀ i < st.providers.length,
      ((runSelect st (k * st.providers.length)).1).count i = k) := by
  by_cases hn : st.providers.length = 0
  · constructor
    · rw [hn, Nat.mul_zero]
      rfl
    · intro i hi
      rw [hn] at hi
      omega
  · have hn2 : 0 < st.providers.length := Nat.pos_of_ne_zero hn
    have hrun := runSelect_unlimited (k * st.providers.length) st hn2 hU
    rw [hrun]
    exact ⟨rfl, fun i hi => count_mod_cycles st.providers.length i hi k st.current_index⟩

/-- round_robin_fairness_witness instantiates the fairness theorem on three
unlimited providers, k = 2 and starting cursor 5: the six selections are
the residues 2, 0, 1, 2, 0, 1 and every index is selected exactly twice. -/
theorem round_robin_fairness_witness :
    (runSelect { providers := [{ id := "searxng", provider_type := "searxng" },
                               { id := "sx2", provider_type := "searxng" },
                               { id := "sx3", provider_type := "searxng" }],
                 current_index := 5, store := none } 6).1 = [2, 0, 1, 2, 0, 1] ∧
    ((runSelect { providers := [{ id := "searxng", provider_type := "searxng" },
                                { id := "sx2", provider_type := "searxng" },
                                { id := "sx3", provider_type := "searxng" }],
                  current_index := 5, store := none } 6).1).count 0 = 2 ∧
    ((runSelect { providers := [{ id := "searxng", provider_type := "searxng" },
                                { id := "sx2", provider_type := "searxng" },
                                { id := "sx3", provider_type := "searxng" }],
                  current_index := 5, store := none } 6).1).count 1 = 2 ∧
    ((runSelect { providers := [{ id := "searxng", provider_type := "searxng" },
                                { id := "sx2", provider_type := "searxng" },
                                { id := "sx3", provider_type := "searxng" }],
                  current_index := 5, store := none } 6).1).count 2 = 2 := by
  have h := round_robin_fairness
    { providers := [{ id := "searxng", provider_type := "searxng" },
                    { id := "sx2", provider_type := "searxng" },
                    { id := "sx3", provider_type := "searxng" }],
      current_index := 5, store := none } 2
    (by intro p hp; fin_cases hp <;> rfl)
  exact ⟨h.1.trans (by decide), h.2 0 (by decide), h.2 1 (by decide), h.2 2 (by decide)⟩

end GptResearcher
